import Mathlib

/-!
# Verification of the watcher bot's signal-detection core

Shallow embedding of `src/watcher_bot.js` (the "Alpha Scout" deployment):
the `MarketDetector` class (sliding trade window, cooldown map, signal
classification), the per-wallet fingerprint tracker of
`scanSpecificWallets`, the NaN-tracking ingestion arithmetic of
`scanGlobalMarket`, and the `formatAlert` renderer.

Modelling conventions:
* epoch-millisecond times are `Int`; USD amounts and ratios are `Rat`
  (the claims only exercise values where JS double arithmetic is exact);
* the JS object `alertCooldowns` is an association list `List (String × Int)`;
* JS `NaN` is tracked, where a claim needs it, by `Option Rat` with `none`
  playing NaN (see `JNum` below); elsewhere amounts are plain `Rat`;
* JS truthiness tests on strings/numbers are modelled explicitly
  (`cooldownActive` treats a stored time `0` as falsy, `truthyStr` treats
  the empty string as falsy), mirroring `x && …` and `a || b` in the source.
-/

/-- A normalized trade as built by `scanGlobalMarket` (lines 199-208) and
consumed by `MarketDetector`. -/
structure Trade where
  timestamp : Int
  amountUSD : Rat
  user : String
  marketId : String
  marketName : String
  marketSlug : String
  outcome : String
  side : String
deriving DecidableEq, Repr

/-- A classified alert as pushed by `MarketDetector.checkSignals`
(lines 94-102). -/
structure Signal where
  type : String
  marketName : String
  outcome : String
  totalVol : Rat
  uniqueWallets : Nat
  ratio : Rat
  marketId : String
deriving DecidableEq, Repr

/-- `this.alertCooldowns`: market id ↦ epoch ms of last alert. -/
abbrev CooldownMap := List (String × Int)

/-- Reading `this.alertCooldowns[marketId]`: `none` models `undefined`. -/
def lookupCd (cds : CooldownMap) (m : String) : Option Int :=
  match cds with
  | [] => none
  | (k, v) :: rest => if k = m then some v else lookupCd rest m

/-- Writing `this.alertCooldowns[marketId] = now`. -/
def setCd (cds : CooldownMap) (m : String) (v : Int) : CooldownMap :=
  match cds with
  | [] => [(m, v)]
  | (k, w) :: rest => if k = m then (k, v) :: rest else (k, w) :: setCd rest m v

/-- The state of a `MarketDetector` instance (constructor, lines 39-42). -/
structure DetectorState where
  tradeWindow : List Trade
  alertCooldowns : CooldownMap
deriving DecidableEq, Repr

/-- The pruning filter of `addTrade` (line 48):
`this.tradeWindow.filter(t => t.timestamp > cutoff)` with
`cutoff = now - 60000`. -/
def pruneWindow (w : List Trade) (now : Int) : List Trade :=
  w.filter (fun t => decide (t.timestamp > now - 60000))

/-- `MarketDetector.addTrade` (lines 44-49): push the trade, then filter the
whole window by the 60-second cutoff, `now` sampled once per call. -/
def addTrade (s : DetectorState) (trade : Trade) (now : Int) : DetectorState :=
  { s with tradeWindow := pruneWindow (s.tradeWindow ++ [trade]) now }

theorem lookupCd_setCd_self (cds : CooldownMap) (m : String) (v : Int) :
    lookupCd (setCd cds m v) m = some v := by
  induction cds with
  | nil => simp [setCd, lookupCd]
  | cons kv rest ih =>
    obtain ⟨k, w⟩ := kv
    by_cases hk : k = m
    · simp [setCd, lookupCd, hk]
    · simp [setCd, lookupCd, hk, ih]

theorem lookupCd_setCd_other (cds : CooldownMap) (m m' : String) (v : Int)
    (h : m ≠ m') : lookupCd (setCd cds m' v) m = lookupCd cds m := by
  induction cds with
  | nil => simp [setCd, lookupCd, Ne.symm h]
  | cons kv rest ih =>
    obtain ⟨k, w⟩ := kv
    by_cases hk : k = m'
    · subst hk
      have hkm : ¬ k = m := fun h2 => h (h2.symm ▸ rfl)
      simp [setCd, lookupCd, hkm]
    · simp [setCd, lookupCd, hk, ih]

theorem mem_pruneWindow (w : List Trade) (now : Int) (t : Trade) :
    t ∈ pruneWindow w now ↔ t ∈ w ∧ now - t.timestamp < 60000 := by
  simp only [pruneWindow, List.mem_filter, decide_eq_true_eq]
  constructor
  · rintro ⟨h1, h2⟩
    exact ⟨h1, by omega⟩
  · rintro ⟨h1, h2⟩
    exact ⟨h1, by omega⟩

theorem addTrade_window_mem (s : DetectorState) (trade : Trade) (now : Int) :
    ∀ t, t ∈ (addTrade s trade now).tradeWindow ↔
      ((t ∈ s.tradeWindow ∨ t = trade) ∧ now - t.timestamp < 60000) := by
  intro t
  simp [addTrade, mem_pruneWindow]

/-- The grouping pass of `checkSignals` (lines 56-63): the keys of the
`groups` object, in insertion (= first-occurrence) order. -/
def marketIds (w : List Trade) : List String :=
  w.foldl (fun acc t => if t.marketId ∈ acc then acc else acc ++ [t.marketId]) []

/-- `groups[m].buys` (line 61). -/
def buysOf (w : List Trade) (m : String) : List Trade :=
  w.filter (fun t => t.marketId == m && t.side == "Buy")

/-- `groups[m].sells` (line 62: every non-`'Buy'` trade). -/
def sellsOf (w : List Trade) (m : String) : List Trade :=
  w.filter (fun t => t.marketId == m && !(t.side == "Buy"))

/-- `reduce((sum, t) => sum + t.amountUSD, 0)` (lines 70-71). -/
def sumUSD (ts : List Trade) : Rat :=
  ts.foldl (fun acc t => acc + t.amountUSD) 0

def buyVolOf (w : List Trade) (m : String) : Rat := sumUSD (buysOf w m)

def sellVolOf (w : List Trade) (m : String) : Rat := sumUSD (sellsOf w m)

/-- `new Set(data.buys.map(t => t.user)).size` (line 79). -/
def uniqueBuyersOf (w : List Trade) (m : String) : Nat :=
  ((buysOf w m).map (fun t => t.user)).dedup.length

/-- `const ratio = sellVol === 0 ? buyVol : (buyVol / sellVol)` (line 75). -/
def ratioOf (w : List Trade) (m : String) : Rat :=
  if sellVolOf w m = 0 then buyVolOf w m else buyVolOf w m / sellVolOf w m

/-- `if (sellVol > 0 && ratio < 3.0) continue` (line 76). -/
def ratioSkip (w : List Trade) (m : String) : Bool :=
  decide (sellVolOf w m > 0) && decide (ratioOf w m < 3)

/-- `groups[m].meta`: the trade that created the group, i.e. the first
window trade of that market (line 59). -/
def metaOf (w : List Trade) (m : String) : Option Trade :=
  w.find? (fun t => t.marketId == m)

/-- Conditions A and B (lines 84-90): `WOLF_PACK` for 3+ unique buyers and
buy volume strictly above 10000, else `VOLUME_SURGE` for buy volume
strictly above 15000, else no alert. -/
def classify (uniqueBuyers : Nat) (buyVol : Rat) : Option String :=
  if uniqueBuyers ≥ 3 ∧ buyVol > 10000 then some "WOLF_PACK"
  else if buyVol > 15000 then some "VOLUME_SURGE"
  else none

/-- The cooldown test of line 68:
`this.alertCooldowns[marketId] && (now - this.alertCooldowns[marketId] < 300000)`.
An absent entry is `undefined` (falsy); a stored time `0` is falsy too. -/
def cooldownActive (cds : CooldownMap) (m : String) (now : Int) : Bool :=
  match lookupCd cds m with
  | none => false
  | some t => decide (t ≠ 0) && decide (now - t < 300000)

/-- The body of the per-market loop of `checkSignals` (lines 66-103) for one
market, reading the cooldown map as it stands when that market is reached. -/
def processMarket (cds : CooldownMap) (now : Int) (w : List Trade) (m : String) :
    Option Signal :=
  if cooldownActive cds m now then none
  else if ratioSkip w m then none
  else
    match classify (uniqueBuyersOf w m) (buyVolOf w m), metaOf w m with
    | some ty, some meta =>
        some { type := ty, marketName := meta.marketName, outcome := meta.outcome,
               totalVol := buyVolOf w m, uniqueWallets := uniqueBuyersOf w m,
               ratio := ratioOf w m, marketId := m }
    | _, _ => none

/-- One iteration of the market loop: on an alert, stamp the cooldown map
(line 93) and push the signal (line 94). -/
def detectStep (now : Int) (w : List Trade) (acc : List Signal × CooldownMap)
    (m : String) : List Signal × CooldownMap :=
  match processMarket acc.2 now w m with
  | none => acc
  | some sig => (acc.1 ++ [sig], setCd acc.2 m now)

/-- `MarketDetector.checkSignals` (lines 51-106): returns the pushed signals
and the detector state after the call (`now` sampled once, line 52; the
trade window is not touched). -/
def checkSignals (s : DetectorState) (now : Int) : List Signal × DetectorState :=
  let r := (marketIds s.tradeWindow).foldl (detectStep now s.tradeWindow)
    ([], s.alertCooldowns)
  (r.1, { tradeWindow := s.tradeWindow, alertCooldowns := r.2 })

theorem checkSignals_window (s : DetectorState) (now : Int) :
    (checkSignals s now).2.tradeWindow = s.tradeWindow := rfl

theorem marketIds_aux_mem (w : List Trade) :
    ∀ (acc : List String) (x : String),
      x ∈ w.foldl (fun acc t => if t.marketId ∈ acc then acc else acc ++ [t.marketId]) acc ↔
      x ∈ acc ∨ ∃ t ∈ w, t.marketId = x := by
  induction w with
  | nil => intro acc x; simp
  | cons hd tl ih =>
    intro acc x
    simp only [List.foldl_cons]
    by_cases hmem : hd.marketId ∈ acc
    · rw [if_pos hmem, ih]
      constructor
      · rintro (h | h)
        · exact Or.inl h
        · exact Or.inr (by simpa using Or.inr h)
      · rintro (h | h)
        · exact Or.inl h
        · rcases (by simpa using h : hd.marketId = x ∨ ∃ t ∈ tl, t.marketId = x) with h | h
          · exact Or.inl (h ▸ hmem)
          · exact Or.inr h
    · rw [if_neg hmem, ih]
      constructor
      · rintro (h | h)
        · rcases List.mem_append.1 h with h | h
          · exact Or.inl h
          · have hx : x = hd.marketId := by simpa using h
            exact Or.inr ⟨hd, by simp, hx.symm⟩
        · exact Or.inr (by simpa using Or.inr h)
      · rintro (h | h)
        · exact Or.inl (List.mem_append.2 (Or.inl h))
        · rcases (by simpa using h : hd.marketId = x ∨ ∃ t ∈ tl, t.marketId = x) with h | h
          · exact Or.inl (List.mem_append.2 (Or.inr (by simp [h])))
          · exact Or.inr h

theorem mem_marketIds (w : List Trade) (x : String) :
    x ∈ marketIds w ↔ ∃ t ∈ w, t.marketId = x := by
  rw [marketIds, marketIds_aux_mem]
  simp

theorem marketIds_aux_nodup (w : List Trade) :
    ∀ (acc : List String), acc.Nodup →
      (w.foldl (fun acc t => if t.marketId ∈ acc then acc else acc ++ [t.marketId]) acc).Nodup := by
  induction w with
  | nil => intro acc h; simpa using h
  | cons hd tl ih =>
    intro acc h
    simp only [List.foldl_cons]
    by_cases hmem : hd.marketId ∈ acc
    · rw [if_pos hmem]; exact ih acc h
    · rw [if_neg hmem]
      refine ih _ ?_
      simp [List.nodup_append, h, hmem]

theorem marketIds_nodup (w : List Trade) : (marketIds w).Nodup :=
  marketIds_aux_nodup w [] List.nodup_nil

/-- `processMarket` reads the cooldown map only at its own market id. -/
theorem processMarket_congr (cds1 cds2 : CooldownMap) (now : Int)
    (w : List Trade) (m : String) (h : lookupCd cds1 m = lookupCd cds2 m) :
    processMarket cds1 now w m = processMarket cds2 now w m := by
  unfold processMarket cooldownActive
  rw [h]

/-- A signal produced for market id `m` carries `marketId = m` and a type
chosen by `classify`. -/
theorem processMarket_eq_some (cds : CooldownMap) (now : Int) (w : List Trade)
    (m : String) (sig : Signal) (h : processMarket cds now w m = some sig) :
    sig.marketId = m ∧
    classify (uniqueBuyersOf w m) (buyVolOf w m) = some sig.type ∧
    cooldownActive cds m now = false ∧ ratioSkip w m = false := by
  unfold processMarket at h
  by_cases h1 : cooldownActive cds m now
  · simp [h1] at h
  · rw [if_neg h1] at h
    by_cases h2 : ratioSkip w m
    · simp [h2] at h
    · rw [if_neg (by simpa using h2)] at h
      rcases hc : classify (uniqueBuyersOf w m) (buyVolOf w m) with _ | ty
      · rw [hc] at h; simp at h
      · rcases hm : metaOf w m with _ | meta
        · rw [hc, hm] at h; simp at h
        · rw [hc, hm] at h
          simp only [Option.some.injEq] at h
          subst h
          exact ⟨rfl, by simp [hc], by simpa using h1, by simpa using h2⟩

/-- Characterization of the per-market loop: with distinct market ids, each
market is processed against a cooldown map that agrees with the initial one
on all still-unprocessed markets, so the emitted signals are a `filterMap`
of `processMarket` over the initial map, and the final map holds `now`
exactly for the markets that fired. -/
theorem detect_foldl_spec (now : Int) (w : List Trade) (cds0 : CooldownMap) :
    ∀ (ids : List String), ids.Nodup →
    ∀ (sigs : List Signal) (cds : CooldownMap),
    (∀ m ∈ ids, lookupCd cds m = lookupCd cds0 m) →
    (ids.foldl (detectStep now w) (sigs, cds)).1
        = sigs ++ ids.filterMap (processMarket cds0 now w) ∧
    ∀ m, lookupCd (ids.foldl (detectStep now w) (sigs, cds)).2 m
        = if m ∈ ids ∧ (processMarket cds0 now w m).isSome then some now
          else lookupCd cds m := by
  intro ids
  induction ids with
  | nil =>
    intro _ sigs cds _
    simp
  | cons i rest ih =>
    intro hnd sigs cds hagree
    have hi : i ∉ rest := (List.nodup_cons.1 hnd).1
    have hrest : rest.Nodup := (List.nodup_cons.1 hnd).2
    have hpi : processMarket cds now w i = processMarket cds0 now w i :=
      processMarket_congr _ _ _ _ _ (hagree i (by simp))
    simp only [List.foldl_cons, List.filterMap_cons]
    rcases hp : processMarket cds0 now w i with _ | sig
    · have hstep : detectStep now w (sigs, cds) i = (sigs, cds) := by
        simp [detectStep, hpi, hp]
      rw [hstep]
      obtain ⟨h1, h2⟩ := ih hrest sigs cds (fun m hm => hagree m (by simp [hm]))
      refine ⟨h1, fun m => ?_⟩
      rw [h2 m]
      by_cases hmi : m = i
      · subst hmi
        simp [hi, hp]
      · simp only [List.mem_cons]
        by_cases hmr : m ∈ rest
        · simp [hmr]
        · simp [hmr, hmi]
    · have hstep : detectStep now w (sigs, cds) i = (sigs ++ [sig], setCd cds i now) := by
        simp [detectStep, hpi, hp]
      rw [hstep]
      have hagree2 : ∀ m ∈ rest, lookupCd (setCd cds i now) m = lookupCd cds0 m := by
        intro m hm
        have hne : m ≠ i := fun h => hi (h ▸ hm)
        rw [lookupCd_setCd_other _ _ _ _ hne]
        exact hagree m (by simp [hm])
      obtain ⟨h1, h2⟩ := ih hrest (sigs ++ [sig]) (setCd cds i now) hagree2
      constructor
      · rw [h1]; simp
      · intro m
        rw [h2 m]
        by_cases hmi : m = i
        · subst hmi
          simp [hi, hp, lookupCd_setCd_self]
        · simp only [List.mem_cons]
          by_cases hmr : m ∈ rest
          · simp [hmr, lookupCd_setCd_other _ _ _ _ hmi]
          · simp [hmr, hmi, lookupCd_setCd_other _ _ _ _ hmi]

theorem checkSignals_fst (s : DetectorState) (now : Int) :
    (checkSignals s now).1
      = (marketIds s.tradeWindow).filterMap
          (processMarket s.alertCooldowns now s.tradeWindow) := by
  have h := detect_foldl_spec now s.tradeWindow s.alertCooldowns
    (marketIds s.tradeWindow) (marketIds_nodup _) [] s.alertCooldowns
    (fun _ _ => rfl)
  simpa [checkSignals] using h.1

theorem checkSignals_lookup (s : DetectorState) (now : Int) (m : String) :
    lookupCd (checkSignals s now).2.alertCooldowns m
      = if m ∈ marketIds s.tradeWindow ∧
            (processMarket s.alertCooldowns now s.tradeWindow m).isSome
        then some now else lookupCd s.alertCooldowns m := by
  have h := detect_foldl_spec now s.tradeWindow s.alertCooldowns
    (marketIds s.tradeWindow) (marketIds_nodup _) [] s.alertCooldowns
    (fun _ _ => rfl)
  simpa [checkSignals] using h.2 m

theorem mem_checkSignals (s : DetectorState) (now : Int) (sig : Signal) :
    sig ∈ (checkSignals s now).1 ↔
      ∃ m ∈ marketIds s.tradeWindow,
        processMarket s.alertCooldowns now s.tradeWindow m = some sig := by
  rw [checkSignals_fst]
  simp [List.mem_filterMap]

/-- Fixture: a buy trade for concrete evaluations. -/
def mkBuy (u : String) (amt : Rat) (m : String) (ts : Int) : Trade :=
  { timestamp := ts, amountUSD := amt, user := u, marketId := m,
    marketName := "Will X happen?", marketSlug := "will-x", outcome := "Yes",
    side := "Buy" }

/-- Fixture: a sell trade for concrete evaluations. -/
def mkSell (u : String) (amt : Rat) (m : String) (ts : Int) : Trade :=
  { mkBuy u amt m ts with side := "Sell" }

/-- C2 counterexample. The claim says a retained trade whose age is exactly
60000 ms survives the pruning of `addTrade`; in the code the filter keeps
`t.timestamp > now - 60000`, so a trade aged exactly 60000 ms is removed:
with the window holding a trade stamped 0, adding a trade at `now = 60000`
evicts it even though its age is exactly 60000. -/
theorem addTrade_exact_age_removed_cex :
    (60000 : Int) - (mkBuy "u0" 5 "m0" 0).timestamp = 60000 ∧
    mkBuy "u0" 5 "m0" 0 ∈
      (DetectorState.mk [mkBuy "u0" 5 "m0" 0] []).tradeWindow ∧
    mkBuy "u0" 5 "m0" 0 ∉
      (addTrade (DetectorState.mk [mkBuy "u0" 5 "m0" 0] [])
        (mkBuy "u1" 5 "m0" 60000) 60000).tradeWindow := by
  refine ⟨by decide, by decide, by decide⟩

/-- C2 (amended). `addTrade` appends the new trade and then filters the whole
window (new trade included) keeping exactly the trades with
`now - timestamp < 60000`; a trade aged exactly 60000 ms is removed, and
consequently every retained trade satisfies `now - timestamp ≤ 60000`
(indeed strictly less) immediately after every call. -/
theorem addTrade_prune_invariant (s : DetectorState) (trade : Trade) (now : Int) :
    (∀ t, t ∈ (addTrade s trade now).tradeWindow ↔
        ((t ∈ s.tradeWindow ∨ t = trade) ∧ now - t.timestamp < 60000)) ∧
    (∀ t ∈ (addTrade s trade now).tradeWindow, now - t.timestamp ≤ 60000) := by
  refine ⟨addTrade_window_mem s trade now, fun t ht => ?_⟩
  have h := (addTrade_window_mem s trade now t).1 ht
  omega

/-- C2 witness: the amended invariant applied to a concrete call. -/
theorem addTrade_prune_invariant_witness :
    (60000 : Int) - (mkBuy "u1" 5 "m0" 60000).timestamp ≤ 60000 :=
  (addTrade_prune_invariant (DetectorState.mk [mkBuy "u0" 5 "m0" 0] [])
    (mkBuy "u1" 5 "m0" 60000) 60000).2 (mkBuy "u1" 5 "m0" 60000) (by decide)

/-- If a market id occurs in the window, the group has a representative. -/
theorem metaOf_isSome_of_mem (w : List Trade) (m : String)
    (hm : m ∈ marketIds w) : ∃ meta, metaOf w m = some meta := by
  obtain ⟨t, htw, htm⟩ := (mem_marketIds _ _).1 hm
  have hs : (w.find? (fun t => t.marketId == m)).isSome :=
    List.find?_isSome.2 ⟨t, htw, by simp [htm]⟩
  exact Option.isSome_iff_exists.1 hs

/-- If the cooldown and ratio gates pass and classification chooses a type,
`checkSignals` emits a signal for that market with that type. -/
theorem checkSignals_emits (s : DetectorState) (now : Int) (m ty : String)
    (hm : m ∈ marketIds s.tradeWindow)
    (hcd : cooldownActive s.alertCooldowns m now = false)
    (hskip : ratioSkip s.tradeWindow m = false)
    (hcl : classify (uniqueBuyersOf s.tradeWindow m) (buyVolOf s.tradeWindow m)
        = some ty) :
    ∃ sg ∈ (checkSignals s now).1, sg.marketId = m ∧ sg.type = ty := by
  obtain ⟨meta, hmeta⟩ := metaOf_isSome_of_mem s.tradeWindow m hm
  have hp : processMarket s.alertCooldowns now s.tradeWindow m =
      some { type := ty, marketName := meta.marketName, outcome := meta.outcome,
             totalVol := buyVolOf s.tradeWindow m,
             uniqueWallets := uniqueBuyersOf s.tradeWindow m,
             ratio := ratioOf s.tradeWindow m, marketId := m } := by
    simp [processMarket, hcd, hskip, hcl, hmeta]
  exact ⟨_, (mem_checkSignals s now _).2 ⟨m, hm, hp⟩, rfl, rfl⟩

/-- If classification declines, `checkSignals` emits nothing for that market. -/
theorem checkSignals_silent (s : DetectorState) (now : Int) (m : String)
    (hcl : classify (uniqueBuyersOf s.tradeWindow m) (buyVolOf s.tradeWindow m)
        = none) :
    ∀ sg ∈ (checkSignals s now).1, sg.marketId ≠ m := by
  intro sg hsg heq
  obtain ⟨m2, hm2, hp⟩ := (mem_checkSignals s now sg).1 hsg
  obtain ⟨hid, hcls, _, _⟩ := processMarket_eq_some _ _ _ _ _ hp
  rw [heq] at hid
  rw [← hid] at hcls
  rw [hcl] at hcls
  exact Option.noConfusion hcls

/-- Fixture: three distinct buyers, buy volume 10001 (just above the cluster
threshold), no sells. -/
def wolfWin1 : List Trade :=
  [mkBuy "a" 3334 "mkt" 0, mkBuy "b" 3334 "mkt" 0, mkBuy "c" 3333 "mkt" 0]

/-- Fixture: three distinct buyers, buy volume exactly 10000, no sells. -/
def wolfWin0 : List Trade :=
  [mkBuy "a" 3334 "mkt" 0, mkBuy "b" 3333 "mkt" 0, mkBuy "c" 3333 "mkt" 0]

/-- Fixture: one buyer, buy volume 15001 (just above the surge threshold). -/
def surgeWin : List Trade := [mkBuy "a" 15001 "mkt" 0]

/-- C1. For every market partition that passes the cooldown and ratio gates,
classification follows the source's priority order (lines 81-90):
`WOLF_PACK` when `uniqueBuyers >= 3` and `buyVol > 10000`, else
`VOLUME_SURGE` when `buyVol > 15000`, else no signal for that market.
Concrete boundaries: with `sellVol = 0`, three unique buyers and
`buyVol = 10001` classify `WOLF_PACK`; `buyVol = 10000` exactly emits
nothing; one buyer with `buyVol = 15001` classifies `VOLUME_SURGE`. -/
theorem checkSignals_classification_priority :
    (∀ (s : DetectorState) (now : Int) (m : String),
      m ∈ marketIds s.tradeWindow →
      cooldownActive s.alertCooldowns m now = false →
      ratioSkip s.tradeWindow m = false →
      ((uniqueBuyersOf s.tradeWindow m ≥ 3 ∧ buyVolOf s.tradeWindow m > 10000 →
          ∃ sg ∈ (checkSignals s now).1, sg.marketId = m ∧ sg.type = "WOLF_PACK") ∧
       (¬(uniqueBuyersOf s.tradeWindow m ≥ 3 ∧ buyVolOf s.tradeWindow m > 10000) →
          buyVolOf s.tradeWindow m > 15000 →
          ∃ sg ∈ (checkSignals s now).1, sg.marketId = m ∧ sg.type = "VOLUME_SURGE") ∧
       (¬(uniqueBuyersOf s.tradeWindow m ≥ 3 ∧ buyVolOf s.tradeWindow m > 10000) →
          ¬(buyVolOf s.tradeWindow m > 15000) →
          ∀ sg ∈ (checkSignals s now).1, sg.marketId ≠ m))) ∧
    (∃ sg ∈ (checkSignals (DetectorState.mk wolfWin1 []) 777).1,
        sg.marketId = "mkt" ∧ sg.type = "WOLF_PACK" ∧ sg.totalVol = 10001 ∧
        sg.uniqueWallets = 3) ∧
    ((checkSignals (DetectorState.mk wolfWin0 []) 777).1 = []) ∧
    (∃ sg ∈ (checkSignals (DetectorState.mk surgeWin []) 777).1,
        sg.marketId = "mkt" ∧ sg.type = "VOLUME_SURGE" ∧ sg.totalVol = 15001 ∧
        sg.uniqueWallets = 1) := by
  refine ⟨fun s now m hm hcd hskip => ⟨?_, ?_, ?_⟩, ?_, ?_, ?_⟩
  · intro h
    exact checkSignals_emits s now m "WOLF_PACK" hm hcd hskip (by
      unfold classify; rw [if_pos h])
  · intro hn h15
    exact checkSignals_emits s now m "VOLUME_SURGE" hm hcd hskip (by
      unfold classify; rw [if_neg hn, if_pos h15])
  · intro hn h15
    exact checkSignals_silent s now m (by
      unfold classify; rw [if_neg hn, if_neg h15])
  · have hb : buyVolOf wolfWin1 "mkt" = 10001 := by
      norm_num [buyVolOf, buysOf, sumUSD, wolfWin1, mkBuy]
    have hu : uniqueBuyersOf wolfWin1 "mkt" = 3 := by decide
    have hcl : classify (uniqueBuyersOf wolfWin1 "mkt") (buyVolOf wolfWin1 "mkt")
        = some "WOLF_PACK" := by
      rw [hb, hu]; norm_num [classify]
    obtain ⟨sg, hsg, h1, h2⟩ := checkSignals_emits (DetectorState.mk wolfWin1 []) 777
      "mkt" "WOLF_PACK" (by decide) (by decide) (by decide) hcl
    obtain ⟨m2, _, hp⟩ := (mem_checkSignals _ _ _).1 hsg
    have hm2 : m2 = "mkt" := by
      have := (processMarket_eq_some _ _ _ _ _ hp).1
      rw [this] at h1; exact h1.symm ▸ rfl
    subst hm2
    have hvol : sg.totalVol = buyVolOf wolfWin1 "mkt" ∧
        sg.uniqueWallets = uniqueBuyersOf wolfWin1 "mkt" := by
      unfold processMarket at hp
      rcases hc2 : classify (uniqueBuyersOf wolfWin1 "mkt") (buyVolOf wolfWin1 "mkt")
        with _ | ty
      · rw [hc2] at hp; simp at hp
      · rcases hm3 : metaOf wolfWin1 "mkt" with _ | meta
        · rw [hc2, hm3] at hp; simp at hp
        · rw [hc2, hm3] at hp
          by_cases hc3 : cooldownActive [] "mkt" 777
          · simp [hc3] at hp
          · rw [if_neg (by simpa using hc3)] at hp
            by_cases hc4 : ratioSkip wolfWin1 "mkt"
            · simp [hc4] at hp
            · rw [if_neg (by simpa using hc4)] at hp
              simp only [Option.some.injEq] at hp
              subst hp; exact ⟨rfl, rfl⟩
    exact ⟨sg, hsg, h1, h2, hvol.1.trans hb, hvol.2.trans hu⟩
  · rw [checkSignals_fst]
    have hb : buyVolOf wolfWin0 "mkt" = 10000 := by
      norm_num [buyVolOf, buysOf, sumUSD, wolfWin0, mkBuy]
    have hu : uniqueBuyersOf wolfWin0 "mkt" = 3 := by decide
    have hc : classify (uniqueBuyersOf wolfWin0 "mkt") (buyVolOf wolfWin0 "mkt")
        = none := by
      rw [hb, hu]; norm_num [classify]
    have h : processMarket ([] : CooldownMap) 777 wolfWin0 "mkt" = none := by
      simp [processMarket, hc]
    have hm : marketIds wolfWin0 = ["mkt"] := by decide
    have hw : (DetectorState.mk wolfWin0 []).tradeWindow = wolfWin0 := rfl
    rw [hw, hm]
    simp [h]
  · have hb : buyVolOf surgeWin "mkt" = 15001 := by
      norm_num [buyVolOf, buysOf, sumUSD, surgeWin, mkBuy]
    have hu : uniqueBuyersOf surgeWin "mkt" = 1 := by decide
    have hcl : classify (uniqueBuyersOf surgeWin "mkt") (buyVolOf surgeWin "mkt")
        = some "VOLUME_SURGE" := by
      rw [hb, hu]; norm_num [classify]
    obtain ⟨sg, hsg, h1, h2⟩ := checkSignals_emits (DetectorState.mk surgeWin []) 777
      "mkt" "VOLUME_SURGE" (by decide) (by decide) (by decide) hcl
    obtain ⟨m2, _, hp⟩ := (mem_checkSignals _ _ _).1 hsg
    have hm2 : m2 = "mkt" := by
      have := (processMarket_eq_some _ _ _ _ _ hp).1
      rw [this] at h1; exact h1.symm ▸ rfl
    subst hm2
    have hvol : sg.totalVol = buyVolOf surgeWin "mkt" ∧
        sg.uniqueWallets = uniqueBuyersOf surgeWin "mkt" := by
      unfold processMarket at hp
      rcases hc2 : classify (uniqueBuyersOf surgeWin "mkt") (buyVolOf surgeWin "mkt")
        with _ | ty
      · rw [hc2] at hp; simp at hp
      · rcases hm3 : metaOf surgeWin "mkt" with _ | meta
        · rw [hc2, hm3] at hp; simp at hp
        · rw [hc2, hm3] at hp
          by_cases hc3 : cooldownActive [] "mkt" 777
          · simp [hc3] at hp
          · rw [if_neg (by simpa using hc3)] at hp
            by_cases hc4 : ratioSkip surgeWin "mkt"
            · simp [hc4] at hp
            · rw [if_neg (by simpa using hc4)] at hp
              simp only [Option.some.injEq] at hp
              subst hp; exact ⟨rfl, rfl⟩
    exact ⟨sg, hsg, h1, h2, hvol.1.trans hb, hvol.2.trans hu⟩

/-- C1 witness: the general classification statement applied to the concrete
wolf-pack window at a fresh call time. -/
theorem checkSignals_classification_priority_witness :
    ∃ sg ∈ (checkSignals (DetectorState.mk wolfWin1 []) 778).1,
      sg.marketId = "mkt" ∧ sg.type = "WOLF_PACK" :=
  (checkSignals_classification_priority.1 (DetectorState.mk wolfWin1 []) 778 "mkt"
    (by decide) (by decide) (by decide)).1
    ⟨by decide, by norm_num [buyVolOf, buysOf, sumUSD, wolfWin1, mkBuy]⟩

/-- Fixture: buy 299 against sell 100 on one market (ratio 2.99). -/
def ratioWin299 : List Trade := [mkBuy "a" 299 "mkt" 0, mkSell "b" 100 "mkt" 0]

/-- Fixture: buy 300 against sell 100 on one market (ratio 3.0). -/
def ratioWin300 : List Trade := [mkBuy "a" 300 "mkt" 0, mkSell "b" 100 "mkt" 0]

/-- C4. `ratio` is `buyVol` when `sellVol == 0` and `buyVol / sellVol`
otherwise (line 75), and a partition is ratio-skipped — no signal regardless
of volumes — exactly when `sellVol > 0` and `ratio < 3.0` (line 76).
Concretely, `sellVol = 100` with `buyVol = 299` (ratio 2.99) yields no
signal while `buyVol = 300` (ratio 3.0) is not skipped. -/
theorem checkSignals_ratio_noise_filter :
    (∀ (w : List Trade) (m : String),
      (sellVolOf w m = 0 → ratioOf w m = buyVolOf w m) ∧
      (sellVolOf w m ≠ 0 → ratioOf w m = buyVolOf w m / sellVolOf w m) ∧
      (ratioSkip w m = true ↔ sellVolOf w m > 0 ∧ ratioOf w m < 3)) ∧
    (∀ (s : DetectorState) (now : Int) (m : String),
      sellVolOf s.tradeWindow m > 0 → ratioOf s.tradeWindow m < 3 →
      ∀ sg ∈ (checkSignals s now).1, sg.marketId ≠ m) ∧
    (ratioOf ratioWin299 "mkt" = 299/100 ∧
      (checkSignals (DetectorState.mk ratioWin299 []) 777).1 = []) ∧
    (ratioOf ratioWin300 "mkt" = 3 ∧ ratioSkip ratioWin300 "mkt" = false) := by
  have h299s : sellsOf ratioWin299 "mkt" = [mkSell "b" 100 "mkt" 0] := by decide
  have h299b : buysOf ratioWin299 "mkt" = [mkBuy "a" 299 "mkt" 0] := by decide
  have hs299 : sellVolOf ratioWin299 "mkt" = 100 := by
    rw [sellVolOf, h299s]; norm_num [sumUSD, mkSell, mkBuy]
  have hb299 : buyVolOf ratioWin299 "mkt" = 299 := by
    rw [buyVolOf, h299b]; norm_num [sumUSD, mkBuy]
  have hr299 : ratioOf ratioWin299 "mkt" = 299/100 := by
    rw [ratioOf, hs299, hb299]; norm_num
  have h300s : sellsOf ratioWin300 "mkt" = [mkSell "b" 100 "mkt" 0] := by decide
  have h300b : buysOf ratioWin300 "mkt" = [mkBuy "a" 300 "mkt" 0] := by decide
  have hs300 : sellVolOf ratioWin300 "mkt" = 100 := by
    rw [sellVolOf, h300s]; norm_num [sumUSD, mkSell, mkBuy]
  have hb300 : buyVolOf ratioWin300 "mkt" = 300 := by
    rw [buyVolOf, h300b]; norm_num [sumUSD, mkBuy]
  have hr300 : ratioOf ratioWin300 "mkt" = 3 := by
    rw [ratioOf, hs300, hb300]; norm_num
  refine ⟨fun w m => ⟨fun h => by rw [ratioOf, if_pos h],
      fun h => by rw [ratioOf, if_neg h], by simp [ratioSkip]⟩,
    fun s now m hpos hlt sg hsg heq => ?_, ⟨hr299, ?_⟩, hr300, ?_⟩
  · obtain ⟨m2, hm2, hp⟩ := (mem_checkSignals s now sg).1 hsg
    obtain ⟨hid, _, _, hrs⟩ := processMarket_eq_some _ _ _ _ _ hp
    rw [heq] at hid
    rw [← hid] at hrs
    rw [ratioSkip] at hrs
    simp only [Bool.and_eq_false_iff, decide_eq_false_iff_not] at hrs
    rcases hrs with h | h
    · exact h hpos
    · exact h hlt
  · rw [checkSignals_fst]
    have hskip : ratioSkip ratioWin299 "mkt" = true := by
      rw [ratioSkip, hs299, hr299]; norm_num
    have hnone : processMarket ([] : CooldownMap) 777 ratioWin299 "mkt" = none := by
      simp [processMarket, hskip]
    have hm : marketIds ratioWin299 = ["mkt"] := by decide
    have hw : (DetectorState.mk ratioWin299 []).tradeWindow = ratioWin299 := rfl
    rw [hw, hm]
    simp [hnone]
  · rw [ratioSkip, hs300, hr300]
    norm_num

/-- C4 witness: the ratio definition applied at the concrete 299-vs-100
window, with the nonzero-sell hypothesis discharged. -/
theorem checkSignals_ratio_noise_filter_witness :
    ratioOf ratioWin299 "mkt" = buyVolOf ratioWin299 "mkt" / sellVolOf ratioWin299 "mkt" :=
  (checkSignals_ratio_noise_filter.1 ratioWin299 "mkt").2.1 (by
    rw [sellVolOf, (by decide : sellsOf ratioWin299 "mkt" = [mkSell "b" 100 "mkt" 0])]
    norm_num [sumUSD, mkSell, mkBuy])

/-- An operation on the running detector: one global-scan ingestion
(`detector.addTrade`, line 199) or one evaluation (`detector.checkSignals`,
line 220), each at its own wall-clock time. -/
inductive DetectorEvent
  | addEvt (trade : Trade) (now : Int)
  | checkEvt (now : Int)
deriving DecidableEq, Repr

/-- Run a sequence of detector operations, collecting every emitted signal. -/
def runCollect (s : DetectorState) :
    List DetectorEvent → List Signal × DetectorState
  | [] => ([], s)
  | DetectorEvent.addEvt t now :: es => runCollect (addTrade s t now) es
  | DetectorEvent.checkEvt now :: es =>
      let r := checkSignals s now
      let rest := runCollect r.2 es
      (r.1 ++ rest.1, rest.2)

/-- While a (nonzero) cooldown stamp for market `M` stays within its
5-minute horizon, every evaluation leaves the stamp in place and emits
nothing for `M`. -/
theorem run_cooldown_suppress (M : String) (T : Int) (hT : 0 < T) :
    ∀ (es : List DetectorEvent) (s : DetectorState),
      lookupCd s.alertCooldowns M = some T →
      (∀ now, DetectorEvent.checkEvt now ∈ es → now - T < 300000) →
      (∀ sg ∈ (runCollect s es).1, sg.marketId ≠ M) ∧
      lookupCd (runCollect s es).2.alertCooldowns M = some T := by
  intro es
  induction es with
  | nil =>
    intro s hcd _
    exact ⟨fun sg h => absurd h (by simp [runCollect]), by simpa [runCollect] using hcd⟩
  | cons e rest ih =>
    intro s hcd hchk
    cases e with
    | addEvt t now =>
      have hpres : (addTrade s t now).alertCooldowns = s.alertCooldowns := rfl
      have := ih (addTrade s t now) (by rw [hpres]; exact hcd)
        (fun n hn => hchk n (by simp [hn]))
      exact ⟨fun sg h => this.1 sg (by simpa [runCollect] using h),
        by simpa [runCollect] using this.2⟩
    | checkEvt now =>
      have hact : cooldownActive s.alertCooldowns M now = true := by
        rw [cooldownActive, hcd]
        have h1 : T ≠ 0 := by omega
        have h2 : now - T < 300000 := hchk now (by simp)
        simp [h1, h2]
      have hnone : processMarket s.alertCooldowns now s.tradeWindow M = none := by
        simp [processMarket, hact]
      have h1 : ∀ sg ∈ (checkSignals s now).1, sg.marketId ≠ M := by
        intro sg hsg heq
        obtain ⟨m2, hm2, hp⟩ := (mem_checkSignals _ _ _).1 hsg
        have hid := (processMarket_eq_some _ _ _ _ _ hp).1
        rw [heq] at hid
        rw [← hid] at hp
        rw [hnone] at hp
        exact Option.noConfusion hp
      have h2 : lookupCd (checkSignals s now).2.alertCooldowns M = some T := by
        rw [checkSignals_lookup]
        simp [hnone, hcd]
      obtain ⟨ih1, ih2⟩ := ih (checkSignals s now).2 h2
        (fun n hn => hchk n (by simp [hn]))
      refine ⟨fun sg hsg => ?_, by simpa [runCollect] using ih2⟩
      rcases List.mem_append.1 (by simpa [runCollect] using hsg) with h | h
      · exact h1 sg h
      · exact ih1 sg h

/-- Fixture: a window qualifying for `WOLF_PACK` on a symbolic market id. -/
def qualWin (M : String) : List Trade :=
  [mkBuy "u1" 4000 M 0, mkBuy "u2" 4000 M 0, mkBuy "u3" 4000 M 0]

theorem qualWin_mem_marketIds (M : String) : M ∈ marketIds (qualWin M) :=
  (mem_marketIds _ _).2 ⟨mkBuy "u1" 4000 M 0, by simp [qualWin], by simp [mkBuy]⟩

theorem qualWin_sells (M : String) : sellsOf (qualWin M) M = [] := by
  simp only [sellsOf, qualWin, List.filter_eq_nil_iff]
  intro a ha
  have hside : a.side = "Buy" := by
    rcases (by simpa using ha :
        a = mkBuy "u1" 4000 M 0 ∨ a = mkBuy "u2" 4000 M 0 ∨ a = mkBuy "u3" 4000 M 0)
      with h | h | h <;> simp [h, mkBuy]
  simp [hside]

theorem qualWin_buys (M : String) : buysOf (qualWin M) M = qualWin M := by
  simp only [buysOf, qualWin]
  simp [mkBuy]

theorem qualWin_ratioSkip (M : String) : ratioSkip (qualWin M) M = false := by
  rw [ratioSkip, sellVolOf, qualWin_sells]
  norm_num [sumUSD]

theorem qualWin_classify (M : String) :
    classify (uniqueBuyersOf (qualWin M) M) (buyVolOf (qualWin M) M)
      = some "WOLF_PACK" := by
  have hb : buyVolOf (qualWin M) M = 12000 := by
    rw [buyVolOf, qualWin_buys]
    norm_num [sumUSD, qualWin, mkBuy]
  have hu : uniqueBuyersOf (qualWin M) M = 3 := by
    rw [uniqueBuyersOf, qualWin_buys]
    have : (qualWin M).map (fun t => t.user) = ["u1", "u2", "u3"] := by
      simp [qualWin, mkBuy]
    rw [this]
    decide
  rw [hb, hu]
  norm_num [classify]

/-- C3. Emitting a signal for market `M` at time `T > 0` stamps the cooldown
map with `T` (line 93); from then on, any sequence of ingestions and
evaluations whose evaluation times stay under `T + 300000` emits nothing for
`M` and leaves the stamp intact (line 68); and at `T + 300001` an
otherwise-qualifying partition for `M` may fire again. -/
theorem checkSignals_cooldown_five_minutes
    (s : DetectorState) (T : Int) (M : String) (sig : Signal)
    (hT : 0 < T) (hsig : sig ∈ (checkSignals s T).1) (hM : sig.marketId = M) :
    lookupCd (checkSignals s T).2.alertCooldowns M = some T ∧
    (∀ es : List DetectorEvent,
      (∀ now, DetectorEvent.checkEvt now ∈ es → now - T < 300000) →
      ∀ sg2 ∈ (runCollect (checkSignals s T).2 es).1, sg2.marketId ≠ M) ∧
    (∃ s1 : DetectorState, lookupCd s1.alertCooldowns M = some T ∧
      ∃ sg2 ∈ (checkSignals s1 (T + 300001)).1, sg2.marketId = M) := by
  have hstamp : lookupCd (checkSignals s T).2.alertCooldowns M = some T := by
    obtain ⟨m2, hm2, hp⟩ := (mem_checkSignals _ _ _).1 hsig
    have hid := (processMarket_eq_some _ _ _ _ _ hp).1
    rw [hM] at hid
    subst hid
    rw [checkSignals_lookup]
    simp [hm2, hp]
  refine ⟨hstamp, fun es hes => (run_cooldown_suppress M T hT es _ hstamp hes).1, ?_⟩
  refine ⟨DetectorState.mk (qualWin M) [(M, T)], by simp [lookupCd], ?_⟩
  have hcd : cooldownActive [(M, T)] M (T + 300001) = false := by
    rw [cooldownActive]
    have hl : lookupCd [(M, T)] M = some T := by simp [lookupCd]
    rw [hl]
    have : ¬(T + 300001 - T < 300000) := by omega
    simp [this]
  obtain ⟨sg2, hsg2, hid2, _⟩ := checkSignals_emits
    (DetectorState.mk (qualWin M) [(M, T)]) (T + 300001) M "WOLF_PACK"
    (qualWin_mem_marketIds M) hcd (qualWin_ratioSkip M) (qualWin_classify M)
  exact ⟨sg2, hsg2, hid2⟩

/-- C3 witness: a concrete first alert at `T = 1000` stamps the cooldown map. -/
theorem checkSignals_cooldown_five_minutes_witness :
    lookupCd (checkSignals (DetectorState.mk wolfWin1 []) 1000).2.alertCooldowns
      "mkt" = some 1000 := by
  have hb : buyVolOf wolfWin1 "mkt" = 10001 := by
    norm_num [buyVolOf, buysOf, sumUSD, wolfWin1, mkBuy]
  have hu : uniqueBuyersOf wolfWin1 "mkt" = 3 := by decide
  have hcl : classify (uniqueBuyersOf wolfWin1 "mkt") (buyVolOf wolfWin1 "mkt")
      = some "WOLF_PACK" := by
    rw [hb, hu]; norm_num [classify]
  have hmeta : metaOf wolfWin1 "mkt" = some (mkBuy "a" 3334 "mkt" 0) := by decide
  have hsv : sellVolOf wolfWin1 "mkt" = 0 := by
    rw [sellVolOf, (by decide : sellsOf wolfWin1 "mkt" = [])]
    rfl
  have hr : ratioOf wolfWin1 "mkt" = 10001 := by
    rw [ratioOf, hsv, hb]
    norm_num
  have hcl2 : classify 3 10001 = some "WOLF_PACK" := by norm_num [classify]
  have hp : processMarket ([] : CooldownMap) 1000 wolfWin1 "mkt"
      = some (Signal.mk "WOLF_PACK" "Will X happen?" "Yes" 10001 3 10001 "mkt") := by
    simp [processMarket, (by decide : cooldownActive [] "mkt" 1000 = false),
      (by decide : ratioSkip wolfWin1 "mkt" = false), hcl, hcl2, hmeta, mkBuy,
      hb, hr, hu]
  have hmem : Signal.mk "WOLF_PACK" "Will X happen?" "Yes" 10001 3 10001 "mkt"
      ∈ (checkSignals (DetectorState.mk wolfWin1 []) 1000).1 :=
    (mem_checkSignals _ _ _).2 ⟨"mkt", by decide, hp⟩
  exact (checkSignals_cooldown_five_minutes (DetectorState.mk wolfWin1 []) 1000
    "mkt" (Signal.mk "WOLF_PACK" "Will X happen?" "Yes" 10001 3 10001 "mkt")
    (by norm_num) hmem rfl).1

/-- A market that is both gated off cooldown and silent at one time stays
silent at any other time: after the cooldown test, `processMarket` depends
only on the window. -/
theorem processMarket_none_stable (cds : CooldownMap) (now1 now2 : Int)
    (w : List Trade) (m : String)
    (hact : cooldownActive cds m now1 = false)
    (hn : processMarket cds now1 w m = none) :
    processMarket cds now2 w m = none := by
  by_cases h2 : cooldownActive cds m now2 = true
  · simp [processMarket, h2]
  · have h2f : cooldownActive cds m now2 = false := by simpa using h2
    simp only [processMarket, hact, Bool.false_eq_true, if_false] at hn
    simp only [processMarket, h2f, Bool.false_eq_true, if_false]
    exact hn

/-- C8. If `checkSignals` runs twice with no intervening `addTrade` and no
cooldown expiring between the calls (`0 < now1 ≤ now2`, the calls less than
5 minutes apart, and every cooldown still active at the first call still
active at the second), the second call emits nothing: fired markets were
stamped at `now1`, and every other market fails the same gates on the same
window. -/
theorem checkSignals_idempotent_under_cooldown
    (s : DetectorState) (now1 now2 : Int)
    (h0 : 0 < now1) (h12 : now1 ≤ now2) (hspan : now2 - now1 < 300000)
    (hexp : ∀ m t, lookupCd s.alertCooldowns m = some t → t ≠ 0 →
      now1 - t < 300000 → now2 - t < 300000) :
    (checkSignals (checkSignals s now1).2 now2).1 = [] := by
  rw [checkSignals_fst, List.filterMap_eq_nil_iff]
  intro m hm
  have hm0 : m ∈ marketIds s.tradeWindow := by
    rwa [checkSignals_window] at hm
  have hlk := checkSignals_lookup s now1 m
  by_cases hfired : (processMarket s.alertCooldowns now1 s.tradeWindow m).isSome
  · rw [if_pos ⟨hm0, hfired⟩] at hlk
    have hact2 : cooldownActive (checkSignals s now1).2.alertCooldowns m now2
        = true := by
      rw [cooldownActive, hlk]
      have h1 : now1 ≠ 0 := by omega
      simp [h1, hspan]
    simp [processMarket, hact2, checkSignals_window]
  · have hp1 : processMarket s.alertCooldowns now1 s.tradeWindow m = none :=
      Option.not_isSome_iff_eq_none.1 hfired
    rw [if_neg (fun h => hfired h.2)] at hlk
    rw [checkSignals_window]
    have hcongr : processMarket (checkSignals s now1).2.alertCooldowns now2
        s.tradeWindow m = processMarket s.alertCooldowns now2 s.tradeWindow m :=
      processMarket_congr _ _ _ _ _ hlk
    rw [hcongr]
    by_cases hact1 : cooldownActive s.alertCooldowns m now1 = true
    · rcases hl : lookupCd s.alertCooldowns m with _ | t
      · rw [cooldownActive, hl] at hact1
        exact absurd hact1 (by simp)
      · rw [cooldownActive, hl] at hact1
        simp only [Bool.and_eq_true, decide_eq_true_eq] at hact1
        have hact2 : cooldownActive s.alertCooldowns m now2 = true := by
          rw [cooldownActive, hl]
          have := hexp m t hl hact1.1 hact1.2
          simp [hact1.1, this]
        simp [processMarket, hact2]
    · exact processMarket_none_stable _ now1 now2 _ _ (by simpa using hact1) hp1

/-- C8 witness: a qualifying window fires on the first call at `now = 1000`;
the second call at `now = 2000` (no cooldown stored beforehand, none
expiring in between) returns no signals. -/
theorem checkSignals_idempotent_under_cooldown_witness :
    (checkSignals (checkSignals (DetectorState.mk wolfWin1 []) 1000).2 2000).1
      = [] :=
  checkSignals_idempotent_under_cooldown (DetectorState.mk wolfWin1 []) 1000 2000
    (by norm_num) (by norm_num) (by norm_num)
    (fun m t h => by simp [lookupCd] at h)

theorem sumUSD_append_single (l : List Trade) (t : Trade) :
    sumUSD (l ++ [t]) = sumUSD l + t.amountUSD := by
  simp [sumUSD, List.foldl_append]

/-- C10. `addTrade` deduplicates nothing: re-adding a retained trade leaves
two copies in the window (lines 44-48 only append and prune by age), and
each copy contributes its `amountUSD` to that market's buy volume
independently (line 70) — so the same upstream trade ingested again by a
later poll cycle while still inside the 60-second window is double-counted. -/
theorem addTrade_no_dedup (s : DetectorState) (t : Trade) (now : Int)
    (ht : t ∈ s.tradeWindow) (hfresh : now - t.timestamp < 60000) :
    2 ≤ (addTrade s t now).tradeWindow.count t ∧
    (t.side = "Buy" →
      buyVolOf (addTrade s t now).tradeWindow t.marketId
        = buyVolOf (pruneWindow s.tradeWindow now) t.marketId + t.amountUSD) := by
  have hpred : (fun x => decide (x.timestamp > now - 60000)) t = true := by
    simp only [decide_eq_true_eq]
    omega
  have hsplit : (addTrade s t now).tradeWindow
      = pruneWindow s.tradeWindow now ++ [t] := by
    simp [addTrade, pruneWindow, List.filter_append, hpred]
  constructor
  · rw [hsplit, List.count_append]
    have h1 : 1 ≤ (pruneWindow s.tradeWindow now).count t :=
      List.count_pos_iff.2 ((mem_pruneWindow _ _ _).2 ⟨ht, hfresh⟩)
    have h2 : List.count t [t] = 1 := by simp
    omega
  · intro hside
    rw [hsplit]
    have hbuys : buysOf (pruneWindow s.tradeWindow now ++ [t]) t.marketId
        = buysOf (pruneWindow s.tradeWindow now) t.marketId ++ [t] := by
      simp [buysOf, List.filter_append, hside]
    rw [buyVolOf, hbuys, sumUSD_append_single]
    rfl

/-- A raw numeric field of an upstream record, before JS coercion:
`missing` is an absent/undefined field, `num q` a numeric value, and
`malformed` a truthy non-numeric string (its `parseFloat` and arithmetic
coercions are NaN). -/
inductive RawField
  | missing
  | num (q : Rat)
  | malformed
deriving DecidableEq, Repr

/-- A JS number with NaN tracked: `none` models NaN. -/
abbrev JNum := Option Rat

/-- JS addition: NaN absorbs. -/
def jadd : JNum → JNum → JNum
  | some a, some b => some (a + b)
  | _, _ => none

/-- JS multiplication: NaN absorbs. -/
def jmul : JNum → JNum → JNum
  | some a, some b => some (a * b)
  | _, _ => none

/-- `parseFloat(x)`: NaN for a missing or (fully) malformed field. -/
def parseFloatOf : RawField → JNum
  | RawField.num q => some q
  | _ => none

/-- `x || 0`: an absent (falsy) field is replaced by 0; a truthy malformed
string survives the fallback and coerces to NaN under arithmetic. -/
def orZeroNum : RawField → JNum
  | RawField.missing => some 0
  | RawField.num q => some q
  | RawField.malformed => none

/-- `(trade.size || 0) * (trade.price || 0)` — the guarded amount of
`scanSpecificWallets` (line 135). -/
def walletAmount (size price : RawField) : JNum :=
  jmul (orZeroNum size) (orZeroNum price)

/-- `parseFloat(t.size) * parseFloat(t.price)` — the unguarded amount of
`scanGlobalMarket` (line 201). -/
def globalAmount (size price : RawField) : JNum :=
  jmul (parseFloatOf size) (parseFloatOf price)

theorem jmul_none_left (a : JNum) : jmul none a = none := by cases a <;> rfl

theorem jmul_none_right (a : JNum) : jmul a none = none := by cases a <;> rfl

/-- A raw record of the `/activity` upstream feed, with the fields the
global scanner reads. -/
structure RawActivity where
  timestamp : Int
  side : String
  size : RawField
  price : RawField
  taker : Option String
  proxyWallet : Option String
deriving DecidableEq, Repr

/-- JS `a || b` on strings: an absent or empty (falsy) `a` yields `b`. -/
def jsOr (a : Option String) (b : String) : String :=
  match a with
  | some s => if s = "" then b else s
  | none => b

/-- A window trade with its amount's NaN-ness tracked. -/
structure TradeJ where
  timestamp : Int
  amountUSD : JNum
  user : String
  marketId : String
  side : String
deriving DecidableEq, Repr

/-- `scanGlobalMarket` lines 196-209: only `BUY` records are normalized and
fed to the detector, with the unguarded `parseFloat` product as amount. -/
def ingestGlobal (marketId : String) (t : RawActivity) : Option TradeJ :=
  if t.side = "BUY" then
    some { timestamp := t.timestamp,
           amountUSD := globalAmount t.size t.price,
           user := jsOr t.taker (jsOr t.proxyWallet "Unknown"),
           marketId := marketId,
           side := "Buy" }
  else none

/-- The buy-volume aggregation of `checkSignals` (lines 61, 70) over
NaN-tracked amounts. -/
def buyVolJ (w : List TradeJ) (m : String) : JNum :=
  (w.filter (fun t => t.marketId == m && t.side == "Buy")).foldl
    (fun acc t => jadd acc t.amountUSD) (some 0)

theorem jadd_foldl_isSome (l : List JNum) :
    ∀ (x : Rat), (∀ a ∈ l, a.isSome = true) →
      (l.foldl jadd (some x)).isSome = true := by
  induction l with
  | nil => intro x _; rfl
  | cons a rest ih =>
    intro x h
    rcases ha : a with _ | qa
    · exact absurd (ha ▸ h a (by simp)) (by simp)
    · simpa [jadd] using ih (x + qa) (fun b hb => h b (by simp [hb]))

/-- C10 witness: re-adding a retained buy yields two copies, double-counted
in the market's buy volume. -/
theorem addTrade_no_dedup_witness :
    2 ≤ ((addTrade (DetectorState.mk [mkBuy "a" 5 "m0" 0] [])
        (mkBuy "a" 5 "m0" 0) 10).tradeWindow.count (mkBuy "a" 5 "m0" 0)) ∧
    ((mkBuy "a" 5 "m0" 0).side = "Buy" →
      buyVolOf (addTrade (DetectorState.mk [mkBuy "a" 5 "m0" 0] [])
          (mkBuy "a" 5 "m0" 0) 10).tradeWindow (mkBuy "a" 5 "m0" 0).marketId
        = buyVolOf (pruneWindow [mkBuy "a" 5 "m0" 0] 10) (mkBuy "a" 5 "m0" 0).marketId
          + (mkBuy "a" 5 "m0" 0).amountUSD) :=
  addTrade_no_dedup (DetectorState.mk [mkBuy "a" 5 "m0" 0] [])
    (mkBuy "a" 5 "m0" 0) 10 (by decide) (by decide)

/-- C5 counterexample. The claim says malformed/missing numeric fields are
treated as zero so the aggregates are always well-defined; but the global
scanner's `parseFloat(t.size) * parseFloat(t.price)` (line 201) has no
fallback: ingesting a `BUY` record with a missing `size` yields a NaN
amount (`none` in the model) and the market's `buyVol` aggregate is NaN. -/
theorem globalAmount_missing_nan_cex :
    ingestGlobal "m1" (RawActivity.mk 0 "BUY" RawField.missing (RawField.num 1)
        (some "u") none)
      = some (TradeJ.mk 0 none "u" "m1" "Buy") ∧
    buyVolJ [TradeJ.mk 0 none "u" "m1" "Buy"] "m1" = none := by
  exact ⟨by decide, by decide⟩

/-- C5 (amended). Only the wallet-alert path (line 135) guards its numeric
fields, and only against absent (falsy) values: `(size || 0) * (price || 0)`
is a well-defined number whenever neither field is a malformed truthy
string, and is 0 when both are absent. The global-scanner path (line 201)
applies no guard, so any missing or malformed `size`/`price` makes the
ingested amount NaN; the per-market aggregate `buyVol` is well-defined
whenever every ingested amount is. Neither path raises. -/
theorem numericField_handling
    (sz pr : RawField) (w : List TradeJ) (m mid : String)
    (t : RawActivity) (tj : TradeJ) :
    (sz ≠ RawField.malformed → pr ≠ RawField.malformed →
      (walletAmount sz pr).isSome = true) ∧
    (walletAmount RawField.missing RawField.missing = some 0) ∧
    ((∀ u ∈ w, u.amountUSD.isSome = true) → (buyVolJ w m).isSome = true) ∧
    (ingestGlobal mid t = some tj →
      (t.size = RawField.missing ∨ t.size = RawField.malformed ∨
       t.price = RawField.missing ∨ t.price = RawField.malformed) →
      tj.amountUSD = none) := by
  refine ⟨?_, by simp [walletAmount, orZeroNum, jmul], ?_, ?_⟩
  · intro h1 h2
    cases sz with
    | missing => cases pr with
      | missing => simp [walletAmount, orZeroNum, jmul]
      | num q => simp [walletAmount, orZeroNum, jmul]
      | malformed => exact absurd rfl h2
    | num q => cases pr with
      | missing => simp [walletAmount, orZeroNum, jmul]
      | num q2 => simp [walletAmount, orZeroNum, jmul]
      | malformed => exact absurd rfl h2
    | malformed => exact absurd rfl h1
  · intro hall
    rw [buyVolJ, ← List.foldl_map]
    refine jadd_foldl_isSome _ 0 ?_
    intro a ha
    obtain ⟨u, hu, hua⟩ := List.mem_map.1 ha
    exact hua ▸ hall u (List.mem_filter.1 hu).1
  · intro hing hbad
    unfold ingestGlobal at hing
    by_cases hside : t.side = "BUY"
    · rw [if_pos hside] at hing
      simp only [Option.some.injEq] at hing
      subst hing
      rcases hbad with h | h | h | h <;>
        simp [globalAmount, parseFloatOf, h, jmul_none_left, jmul_none_right]
    · rw [if_neg hside] at hing
      exact Option.noConfusion hing

/-- C5 witness: the amended statement applied to concrete fields and a
concrete all-numeric window. -/
theorem numericField_handling_witness :
    (walletAmount RawField.missing (RawField.num 3)).isSome = true ∧
    (buyVolJ [TradeJ.mk 0 (some 7) "u" "m1" "Buy"] "m1").isSome = true :=
  ⟨(numericField_handling RawField.missing (RawField.num 3) [] "m1" "m1"
      (RawActivity.mk 0 "X" RawField.missing RawField.missing none none)
      (TradeJ.mk 0 none "u" "m1" "Buy")).1 (by decide) (by decide),
   (numericField_handling RawField.missing (RawField.num 3)
      [TradeJ.mk 0 (some 7) "u" "m1" "Buy"] "m1" "m1"
      (RawActivity.mk 0 "X" RawField.missing RawField.missing none none)
      (TradeJ.mk 0 none "u" "m1" "Buy")).2.2.1 (by decide)⟩

/-- A record of the wallet `/activity` feed with the fields
`scanSpecificWallets` reads. -/
structure Activity where
  id : Option String
  transactionHash : String
  type : String
  side : String
  size : RawField
  price : RawField
  outcome : Option String
  title : String
  slug : String
deriving DecidableEq, Repr

/-- `trade.id || trade.transactionHash` (line 131): the stored fingerprint,
falling back to the transaction hash when the id is absent (or falsy). -/
def fingerprint (a : Activity) : String := jsOr a.id a.transactionHash

/-- JS truthiness of `w.lastHash`: absent or empty is falsy. -/
def truthyStr : Option String → Bool
  | some s => decide (s ≠ "")
  | none => false

/-- The per-wallet core of `scanSpecificWallets` (lines 129-157), given the
stored fingerprint and the freshest upstream record: first component is
whether an alert message is dispatched (line 143), second the database
write issued (`some h` = store `h`, lines 147-156; `none` = no write). -/
def checkWallet (lastHash : Option String) (a : Activity) : Bool × Option String :=
  let currentHash := fingerprint a
  if truthyStr lastHash && decide (lastHash ≠ some currentHash) then
    (decide (a.type = "TRADE"), some currentHash)
  else if !truthyStr lastHash then
    (false, some currentHash)
  else
    (false, none)

/-- C6. First-sync policy and change detection of `scanSpecificWallets`:
with no stored fingerprint the current one is stored and nothing is sent;
with a stored (nonempty) fingerprint equal to the current one nothing is
sent and nothing is written; with a differing current fingerprint and
`type == "TRADE"` exactly one alert is sent and the new fingerprint is
stored. -/
theorem walletTracker_fingerprint_protocol (a : Activity) (c : String) :
    (checkWallet none a = (false, some (fingerprint a))) ∧
    (c ≠ "" → fingerprint a = c → checkWallet (some c) a = (false, none)) ∧
    (c ≠ "" → c ≠ fingerprint a → a.type = "TRADE" →
      checkWallet (some c) a = (true, some (fingerprint a))) := by
  refine ⟨by simp [checkWallet, truthyStr], ?_, ?_⟩
  · intro h1 h2
    simp [checkWallet, truthyStr, h1, h2]
  · intro h1 h2 h3
    simp [checkWallet, truthyStr, h1, h2, h3]

/-- C6 witness: the protocol applied to a concrete changed `TRADE` record. -/
theorem walletTracker_fingerprint_protocol_witness :
    checkWallet (some "oldTx")
      (Activity.mk (some "newTx") "h1" "TRADE" "BUY" (RawField.num 10)
        (RawField.num 1) (some "Yes") "Will X happen?" "will-x")
      = (true, some "newTx") :=
  (walletTracker_fingerprint_protocol
    (Activity.mk (some "newTx") "h1" "TRADE" "BUY" (RawField.num 10)
      (RawField.num 1) (some "Yes") "Will X happen?" "will-x") "oldTx").2.2
    (by decide) (by decide) (by decide)

/-- The outcome of the per-wallet upstream fetch (line 125): the response
rows, or the exception `axios` threw. -/
inductive FetchOutcome
  | ok (recs : List Activity)
  | fail (msg : String)
deriving DecidableEq, Repr

/-- One entry of `user.wallets`. -/
structure WalletEntry where
  address : String
  name : String
  lastHash : Option String
deriving DecidableEq, Repr

/-- The observable effects of one poll pass of `scanSpecificWallets`:
dispatched alerts (wallet name with the record), database writes
(address with the stored fingerprint), and logged per-wallet errors. -/
structure ScanOut where
  alerts : List (String × Activity)
  writes : List (String × String)
  errLogs : List String
deriving DecidableEq, Repr

def emptyOut : ScanOut := ScanOut.mk [] [] []

def ScanOut.comb (x y : ScanOut) : ScanOut :=
  ScanOut.mk (x.alerts ++ y.alerts) (x.writes ++ y.writes) (x.errLogs ++ y.errLogs)

/-- The `try` block body for one wallet (lines 124-158): the fetch may
throw; otherwise an empty response does nothing (line 129), and a nonempty
one runs the fingerprint protocol on `res.data[0]`. -/
def walletBody (w : WalletEntry) (f : FetchOutcome) : Except String ScanOut :=
  match f with
  | FetchOutcome.fail e => Except.error e
  | FetchOutcome.ok [] => Except.ok emptyOut
  | FetchOutcome.ok (a :: _) =>
      let r := checkWallet w.lastHash a
      Except.ok (ScanOut.mk
        (if r.1 then [(w.name, a)] else [])
        (match r.2 with | some h => [(w.address, h)] | none => [])
        [])

/-- One iteration of the wallet loop: the `catch` (line 159) turns a thrown
error into a log entry and the loop continues. -/
def walletDelta (p : WalletEntry × FetchOutcome) : ScanOut :=
  match walletBody p.1 p.2 with
  | Except.ok d => d
  | Except.error _ => ScanOut.mk [] [] ["Error scanning wallet " ++ p.1.name]

/-- The wallet loop of `scanSpecificWallets` (lines 123-160) over the
wallets paired with their fetch outcomes. -/
def scanPass (items : List (WalletEntry × FetchOutcome)) : ScanOut :=
  items.foldl (fun acc p => acc.comb (walletDelta p)) emptyOut

theorem ScanOut.comb_empty (x : ScanOut) : x.comb emptyOut = x := by
  simp [ScanOut.comb, emptyOut]

theorem ScanOut.empty_comb (x : ScanOut) : emptyOut.comb x = x := by
  simp [ScanOut.comb, emptyOut]

theorem ScanOut.comb_assoc (x y z : ScanOut) :
    (x.comb y).comb z = x.comb (y.comb z) := by
  simp [ScanOut.comb]

theorem scanPass_foldl (l : List (WalletEntry × FetchOutcome)) :
    ∀ acc : ScanOut,
      l.foldl (fun acc p => acc.comb (walletDelta p)) acc = acc.comb (scanPass l) := by
  induction l with
  | nil => intro acc; simp [scanPass, ScanOut.comb_empty]
  | cons p rest ih =>
    intro acc
    simp only [scanPass, List.foldl_cons] at ih ⊢
    rw [ih (acc.comb (walletDelta p)), ih (emptyOut.comb (walletDelta p)),
      ScanOut.empty_comb, ScanOut.comb_assoc]

theorem scanPass_append (l1 l2 : List (WalletEntry × FetchOutcome)) :
    scanPass (l1 ++ l2) = (scanPass l1).comb (scanPass l2) := by
  rw [scanPass, List.foldl_append, ← scanPass, scanPass_foldl]

/-- C7. A wallet whose fetch fails contributes exactly one error log; every
other wallet of the same poll pass — before or after the failing one — is
processed exactly as it would be without the failure (alerts and database
writes unchanged), so a per-wallet failure never aborts the batch. -/
theorem walletScan_error_isolation
    (pre post : List (WalletEntry × FetchOutcome)) (w : WalletEntry) (e : String) :
    (scanPass (pre ++ (w, FetchOutcome.fail e) :: post)).alerts
      = (scanPass pre).alerts ++ (scanPass post).alerts ∧
    (scanPass (pre ++ (w, FetchOutcome.fail e) :: post)).writes
      = (scanPass pre).writes ++ (scanPass post).writes ∧
    (scanPass (pre ++ (w, FetchOutcome.fail e) :: post)).errLogs
      = (scanPass pre).errLogs
        ++ ("Error scanning wallet " ++ w.name) :: (scanPass post).errLogs := by
  have hone : scanPass [(w, FetchOutcome.fail e)]
      = ScanOut.mk [] [] ["Error scanning wallet " ++ w.name] := by
    simp [scanPass, walletDelta, walletBody, ScanOut.empty_comb]
  have hsplit : pre ++ (w, FetchOutcome.fail e) :: post
      = (pre ++ [(w, FetchOutcome.fail e)]) ++ post := by
    simp
  rw [hsplit, scanPass_append, scanPass_append, hone]
  refine ⟨by simp [ScanOut.comb], by simp [ScanOut.comb], by simp [ScanOut.comb]⟩

/-- Group a reversed digit list into threes (least-significant first). -/
def chunk3 : List Char → List (List Char)
  | [] => []
  | [a] => [[a]]
  | [a, b] => [[a, b]]
  | a :: b :: c :: rest => [a, b, c] :: chunk3 rest

/-- Decimal rendering of a natural with en-US thousands separators. -/
def natGrouped (n : Nat) : String :=
  String.mk ((List.intercalate [','] (chunk3 ((Nat.toDigits 10 n).reverse))).reverse)

/-- `x.toLocaleString('en-US', ...)` with no fraction digits (line 242):
round half away from zero to an integer, then group the digits. -/
def toLocale0 (x : Rat) : String :=
  if x < 0 then "-" ++ natGrouped (Int.toNat ⌊-x + 1/2⌋)
  else natGrouped (Int.toNat ⌊x + 1/2⌋)

/-- `x.toFixed(1)` (line 243) for the nonnegative ratios the detector
produces: the nearest tenth, ties toward the larger value. -/
def toFixed1 (x : Rat) : String :=
  let n := ⌊10 * x + 1/2⌋
  if n < 0 then
    "-" ++ (toString (n.natAbs / 10) ++ "." ++ toString (n.natAbs % 10))
  else toString (Int.toNat n / 10) ++ "." ++ toString (Int.toNat n % 10)

/-- The type-specific title of `formatAlert` (lines 238-240). -/
def titleOf (ty : String) : String :=
  let t1 := "⚠️ <b>Market Alert</b>"
  let t2 := if ty = "WOLF_PACK" then "🚨 <b>Wolf Pack Cluster Detected</b>" else t1
  if ty = "VOLUME_SURGE" then "🌊 <b>High Volume Surge Detected</b>" else t2


/-- `formatAlert` (lines 237-253): Signal to display text. -/
def formatAlert (alert : Signal) : String :=
  titleOf alert.type ++ "\n\n" ++
  "🎯 <b>Market:</b> " ++ alert.marketName ++ "\n" ++
  "📈 <b>Outcome:</b> " ++ alert.outcome ++ "\n" ++
  "💰 <b>Total Vol:</b> " ++ "$" ++ toLocale0 alert.totalVol ++ "\n" ++
  "👥 <b>Unique Wallets:</b> " ++ toString alert.uniqueWallets ++ "\n" ++
  "⚖️ <b>Buy Pressure:</b> " ++
  (if alert.ratio > 100 then "MAX" else toFixed1 alert.ratio) ++ "x" ++ "\n" ++
  "⏱ <b>Time Window:</b> 60s\n\n" ++
  "<a href=\"https://polymarket.com/market/" ++ alert.marketId ++
  "\">View Market</a>"

/-- `sub` occurs contiguously inside `s`. -/
def ContainsSub (s sub : String) : Prop := ∃ pre post, s = pre ++ sub ++ post

theorem ContainsSub.self (s : String) : ContainsSub s s :=
  ⟨"", "", by simp⟩

theorem ContainsSub.appendL {s sub : String} (h : ContainsSub s sub)
    (t : String) : ContainsSub (s ++ t) sub := by
  obtain ⟨pre, post, hp⟩ := h
  exact ⟨pre, post ++ t, by rw [hp]; simp [String.append_assoc]⟩

theorem ContainsSub.appendR (t : String) {s sub : String}
    (h : ContainsSub s sub) : ContainsSub (t ++ s) sub := by
  obtain ⟨pre, post, hp⟩ := h
  exact ⟨t ++ pre, post, by rw [hp]; simp [String.append_assoc]⟩

theorem ContainsSub.pair (x a b : String) :
    ContainsSub ((x ++ a) ++ b) (a ++ b) :=
  ⟨x, "", by simp [String.append_assoc]⟩

theorem ContainsSub.triple (x a b c : String) :
    ContainsSub (((x ++ a) ++ b) ++ c) ((a ++ b) ++ c) :=
  ⟨x, "", by simp [String.append_assoc]⟩

/-- C9. `formatAlert` is a pure function of the Signal (a Lean function by
construction), and its output text contains the type-specific title, the
market name, the outcome, the unique-wallet count, the dollar volume with
thousands separators and no decimals, the buy-pressure ratio rendered "MAX"
above 100 and to one decimal place otherwise, and a deep link built from
the signal's market identifier; with concrete renderings of the volume and
ratio formats and the two type titles. -/
theorem formatAlert_renders (a : Signal) :
    ContainsSub (formatAlert a) (titleOf a.type) ∧
    ContainsSub (formatAlert a) a.marketName ∧
    ContainsSub (formatAlert a) a.outcome ∧
    ContainsSub (formatAlert a) ("$" ++ toLocale0 a.totalVol) ∧
    ContainsSub (formatAlert a) (toString a.uniqueWallets) ∧
    ContainsSub (formatAlert a)
      ((if a.ratio > 100 then "MAX" else toFixed1 a.ratio) ++ "x") ∧
    ContainsSub (formatAlert a)
      ("<a href=\"https://polymarket.com/market/" ++ a.marketId ++
        "\">View Market</a>") ∧
    toLocale0 (1234567 : Rat) = "1,234,567" ∧
    toLocale0 (10500.5 : Rat) = "10,501" ∧
    toFixed1 (299/100 : Rat) = "3.0" ∧
    toFixed1 (100 : Rat) = "100.0" ∧
    titleOf "WOLF_PACK" = "🚨 <b>Wolf Pack Cluster Detected</b>" ∧
    titleOf "VOLUME_SURGE" = "🌊 <b>High Volume Surge Detected</b>" := by
  refine ⟨?_, ?_, ?_, ?_, ?_, ?_, ?_, ?_, ?_, ?_, ?_, by decide, by decide⟩
  · unfold formatAlert
    iterate 22 apply ContainsSub.appendL
    exact ContainsSub.self _
  · unfold formatAlert
    iterate 19 apply ContainsSub.appendL
    exact ContainsSub.appendR _ (ContainsSub.self _)
  · unfold formatAlert
    iterate 16 apply ContainsSub.appendL
    exact ContainsSub.appendR _ (ContainsSub.self _)
  · unfold formatAlert
    iterate 12 apply ContainsSub.appendL
    exact ContainsSub.pair _ _ _
  · unfold formatAlert
    iterate 9 apply ContainsSub.appendL
    exact ContainsSub.appendR _ (ContainsSub.self _)
  · unfold formatAlert
    iterate 5 apply ContainsSub.appendL
    exact ContainsSub.pair _ _ _
  · unfold formatAlert
    exact ContainsSub.triple _ _ _ _
  · rw [toLocale0, if_neg (by norm_num)]
    rw [(by rw [Int.floor_eq_iff] <;> norm_num :
      ⌊(1234567 : Rat) + 1/2⌋ = 1234567)]
    decide
  · rw [toLocale0, if_neg (by norm_num)]
    rw [(by rw [Int.floor_eq_iff] <;> norm_num :
      ⌊(10500.5 : Rat) + 1/2⌋ = 10501)]
    decide
  · rw [toFixed1]
    rw [(by rw [Int.floor_eq_iff] <;> norm_num :
      ⌊(10 : Rat) * (299/100) + 1/2⌋ = 30)]
    decide
  · rw [toFixed1]
    rw [(by rw [Int.floor_eq_iff] <;> norm_num :
      ⌊(10 : Rat) * 100 + 1/2⌋ = 1000)]
    decide
